import Mathlib

/-!
Shallow embedding of the probing and measurement core of the Rust_NPM
network-endpoint health monitor, together with proofs of its specified
properties.  Strings from the Rust side are modelled as `List Char`, Rust
`HashMap<String, V>` as association lists with replace-on-insert, and the
wall clock of the visibility poll as an abstract elapsed-nanoseconds
function subject to explicit monotonicity/step hypotheses.
-/

namespace RustNpm

/-- A single character is ASCII whitespace as recognised by `str::trim`
(restricted to the characters that occur in the monitored inputs). -/
def isWs (c : Char) : Bool :=
  c = ' ' || c = '\t' || c = '\n' || c = '\r'

/-- `str::trim`: drop whitespace from both ends. -/
def trimL (l : List Char) : List Char :=
  ((l.dropWhile isWs).reverse.dropWhile isWs).reverse

/-- Drop whitespace from the end only (`str::trim_end`); `trimL` is
definitionally `rtrimL` after a leading `dropWhile`. -/
def rtrimL (l : List Char) : List Char :=
  (l.reverse.dropWhile isWs).reverse

/-- `str::split(sep)`: split on every occurrence of `sep`; a string with no
separator yields a single field, and `n` separators yield `n+1` fields. -/
def splitChar (sep : Char) : List Char → List (List Char)
  | [] => [[]]
  | c :: cs =>
    if c = sep then [] :: splitChar sep cs
    else
      match splitChar sep cs with
      | [] => [[c]]
      | h :: t => (c :: h) :: t

example : splitChar ':' "a:b".data = ["a".data, "b".data] := by decide

/-- Lowercase an ASCII letter, identity on everything else
(`u8::to_ascii_lowercase`). -/
def asciiLower (c : Char) : Char :=
  if 'A' ≤ c ∧ c ≤ 'Z' then Char.ofNat (c.toNat + 32) else c

/-- `str::eq_ignore_ascii_case`. -/
def eqIgnoreAsciiCase (a b : List Char) : Bool :=
  a.map asciiLower = b.map asciiLower

/-- Numeric value of a digit string (already checked to be all digits). -/
def digitsVal (l : List Char) : Nat :=
  l.foldl (fun a c => a * 10 + (c.toNat - 48)) 0

/-- `str::parse::<u16>()`: optional leading `+`, then one or more ASCII
digits, value at most 65535 (overflow is a parse error). -/
def parseU16 (l : List Char) : Option Nat :=
  let s := if l.headD ' ' = '+' then l.tail else l
  if s ≠ [] ∧ s.all Char.isDigit then
    let n := digitsVal s
    if n ≤ 65535 then some n else none
  else none

/-- One dotted-quad octet as accepted by `Ipv4Addr::from_str`: one or more
digits, no leading zero (unless the octet is exactly `0`), value ≤ 255. -/
def parseOctet (l : List Char) : Option Nat :=
  if l ≠ [] ∧ l.all Char.isDigit ∧ ¬(l.headD ' ' = '0' ∧ l.length > 1) then
    let n := digitsVal l
    if n ≤ 255 then some n else none
  else none

/-- `Ipv4Addr::from_str`: exactly four octets separated by `.`. -/
def parseIpv4 (l : List Char) : Option (Nat × Nat × Nat × Nat) :=
  match splitChar '.' l with
  | [a, b, c, d] =>
    match parseOctet a, parseOctet b, parseOctet c, parseOctet d with
    | some x, some y, some z, some w => some (x, y, z, w)
    | _, _, _, _ => none
  | _ => none

/-- `std::net::SocketAddr` restricted to the IPv4 form the loader builds. -/
structure SockAddr where
  host : Nat × Nat × Nat × Nat
  port : Nat
deriving DecidableEq, Repr

/-- Outcome of one iteration of the `load_addresses` input loop. -/
inductive LineStep where
  /-- Empty line or `done` (ignoring ASCII case): the loop breaks. -/
  | stop : LineStep
  /-- An endpoint was pushed; `warned` records whether the port was
  defaulted to 443 with a warning. -/
  | added (a : SockAddr) (warned : Bool) : LineStep
  /-- The host failed to parse as an IPv4 address (reported per line). -/
  | ipError : LineStep
  /-- The line did not split into exactly two `:`-separated parts. -/
  | formatError : LineStep
deriving DecidableEq, Repr

/-- The body of the `load_addresses` loop for one input line
(`src/address.rs`, lines 19-63). -/
def processLine (input : List Char) : LineStep :=
  let trimmed := trimL input
  if trimmed = [] ∨ eqIgnoreAsciiCase trimmed "done".data then .stop
  else
    match splitChar ':' trimmed with
    | [h, p] =>
      let hostStr := trimL h
      let portStr := trimL p
      match parseIpv4 hostStr with
      | some ip =>
        match parseU16 portStr with
        | some port =>
          if port = 0 then .added ⟨ip, 443⟩ true else .added ⟨ip, port⟩ false
        | none => .added ⟨ip, 443⟩ true
      | none => .ipError
    | _ => .formatError

/-- Everything `load_addresses` leaves behind: the pushed endpoints and the
per-line diagnostics counts. -/
structure LoadResult where
  addrs : List SockAddr
  ipErrors : Nat
  formatErrors : Nat
  warnings : Nat
deriving DecidableEq, Repr

/-- `load_addresses` over a finite stdin transcript: process lines until a
terminator (empty/`done`) or end of input. -/
def load_addresses : List (List Char) → LoadResult
  | [] => ⟨[], 0, 0, 0⟩
  | l :: ls =>
    match processLine l with
    | .stop => ⟨[], 0, 0, 0⟩
    | .added a w =>
      let r := load_addresses ls
      ⟨a :: r.addrs, r.ipErrors, r.formatErrors,
        (if w then 1 else 0) + r.warnings⟩
    | .ipError =>
      let r := load_addresses ls
      ⟨r.addrs, r.ipErrors + 1, r.formatErrors, r.warnings⟩
    | .formatError =>
      let r := load_addresses ls
      ⟨r.addrs, r.ipErrors, r.formatErrors + 1, r.warnings⟩

example : processLine "10.0.0.1:80".data = .added ⟨(10, 0, 0, 1), 80⟩ false := by
  decide

example : processLine " 10.0.0.1 : 80 ".data = .added ⟨(10, 0, 0, 1), 80⟩ false := by
  decide

example : processLine "badhost:80".data = .ipError := by decide

example : processLine "10.0.0.2:0".data = .added ⟨(10, 0, 0, 2), 443⟩ true := by
  decide

example : processLine "DoNe".data = .stop := by decide

example : processLine "10.0.0.1:port".data = .added ⟨(10, 0, 0, 1), 443⟩ true := by
  decide

example :
    load_addresses
      ["10.0.0.1:80".data, "badhost:80".data, "10.0.0.2:0".data, "done".data] =
      ⟨[⟨(10, 0, 0, 1), 80⟩, ⟨(10, 0, 0, 2), 443⟩], 1, 0, 1⟩ := by decide

/-- One deserialized row of the IANA service-name/port-number registry
(`back_end/iana_ports.rs`, struct `PortRecord`). -/
structure PortRecord where
  service_name : List Char
  port_number : List Char
  transport_protocol : List Char
  description : List Char
  assignee : List Char
  contact : List Char
  registration_date : List Char
  modification_date : List Char
  reference : List Char
  service_code : List Char
  unauthorized_use_reported : List Char
  assignment_notes : List Char
deriving DecidableEq, Repr

/-- `HashMap<String, PortRecord>` at the key/value abstraction level:
an association list where insert replaces any previous binding. -/
abbrev PortMap := List (List Char × PortRecord)

/-- `HashMap::insert`: bind `k` to `v`, dropping any earlier binding of `k`. -/
def insertMap (m : PortMap) (k : List Char) (v : PortRecord) : PortMap :=
  (k, v) :: m.filter (fun kv => kv.1 ≠ k)

/-- The keys bound in a `PortMap`. -/
def mapKeys (m : PortMap) : List (List Char) := m.map Prod.fst

/-- The records stored in a `PortMap`. -/
def mapVals (m : PortMap) : List PortRecord := m.map Prod.snd

/-- The three tables `load_port_services` accumulates. -/
structure Tables where
  tcp : PortMap
  udp : PortMap
  range : PortMap
deriving Repr

/-- The body of the `load_port_services` record loop
(`back_end/iana_ports.rs`, lines 48-74) applied to one deserialized record. -/
def loadStep (st : Tables) (r : PortRecord) : Tables :=
  if r.port_number ≠ [] ∧ r.service_name ≠ [] then
    if r.port_number.contains '-' then
      { st with range := insertMap st.range r.port_number r }
    else if (parseU16 r.port_number).isSome then
      if r.transport_protocol.map asciiLower = "tcp".data then
        { st with tcp := insertMap st.tcp r.port_number r }
      else if r.transport_protocol.map asciiLower = "udp".data then
        { st with udp := insertMap st.udp r.port_number r }
      else st
    else st
  else st

/-- The full record loop of `load_port_services`, including the local
`range_services` table. -/
def loadTables (rs : List PortRecord) : Tables :=
  rs.foldl loadStep ⟨[], [], []⟩

/-- `load_port_services` on an already-deserialized record sequence: the
function returns only the TCP and UDP tables (`Ok((tcp_services,
udp_services))`); the range table stays internal. -/
def load_port_services (rs : List PortRecord) : PortMap × PortMap :=
  ((loadTables rs).tcp, (loadTables rs).udp)

/-- WebDriver-level errors as far as the measurement core distinguishes
them (`thirtyfour::WebDriverError` variants actually produced or
propagated by `browser_emulator.rs` / `ping_test.rs`). -/
inductive WDErr where
  /-- `WebDriverError::NoSuchElement` built at lines 94-98 of
  `browser_emulator.rs`, carrying the selector and the timeout seconds. -/
  | noSuchElement (selector : String) (timeoutSecs : Nat) : WDErr
  /-- `WebDriverError::Timeout` built at lines 107-111, carrying the
  selector and the timeout seconds. -/
  | timeout (selector : String) (timeoutSecs : Nat) : WDErr
  /-- any transport error propagated by `?` (e.g. from `is_displayed`
  or `goto`). -/
  | transport : WDErr
  /-- failure of `WebDriver::new` (session creation). -/
  | session : WDErr
  /-- failure of `driver.quit()`. -/
  | closeFail : WDErr
deriving DecidableEq, Repr

/-- What one iteration of the visibility poll observes from the driver:
the outcome of `driver.query(by).first()` and, when an element is found,
of `element.is_displayed()`. -/
inductive PollObs where
  /-- `query(...).first()` returned `Err(_)`. -/
  | errQuery : PollObs
  /-- element found, `is_displayed()` returned `Ok(false)`. -/
  | foundNotDisplayed : PollObs
  /-- element found, `is_displayed()` returned `Ok(true)`. -/
  | foundDisplayed : PollObs
  /-- element found, `is_displayed()` returned `Err(_)` (propagated by `?`). -/
  | foundDisplayErr : PollObs
deriving DecidableEq, Repr

/-- `max_attempts = wait_timeout.as_secs() * 2` with the hardcoded
30-second wait timeout. -/
def maxAttempts : Nat := 30 * 2

/-- `DEFAULT_ELEMENT_WAIT_TIMEOUT_SECONDS` as nanoseconds, the resolution
of `Instant::elapsed`. -/
def elementWaitTimeoutNs : Nat := 30000000000

/-- The `loop` of `measure_load_time` (`browser_emulator.rs`, lines
85-113).  `obs i` is what the driver reports on the poll with
`attempts = i`; `tChk i` is `start_time.elapsed()` in nanoseconds at the
timeout check of that iteration (i.e. after the `(i+1)`-th sleep); `fuel`
bounds the number of iterations (`none` models divergence, which the
timing hypotheses rule out).  The result pairs the value of `attempts` at
exit with the loop's outcome: `.ok ()` for the `break`, `.error e` for an
early `return Err`. -/
def pollLoop (obs : Nat → PollObs) (tChk : Nat → Nat) (sel : String) :
    Nat → Nat → Option (Nat × Except WDErr Unit)
  | 0, _ => none
  | fuel + 1, attempts =>
    match obs attempts with
    | .foundDisplayed => some (attempts, .ok ())
    | .foundDisplayErr => some (attempts, .error .transport)
    | .errQuery =>
      if maxAttempts ≤ attempts then
        some (attempts, .error (.noSuchElement sel 30))
      else if elementWaitTimeoutNs < tChk attempts then
        some (attempts, .error (.timeout sel 30))
      else pollLoop obs tChk sel fuel (attempts + 1)
    | .foundNotDisplayed =>
      if elementWaitTimeoutNs < tChk attempts then
        some (attempts, .error (.timeout sel 30))
      else pollLoop obs tChk sel fuel (attempts + 1)

/-- `BrowserEmulator::measure_load_time` (`browser_emulator.rs`, lines
68-118).  `nav` is the outcome of `driver.goto(url)`; `navDur` is
`start_time.elapsed()` at the no-selector return; `durAt i` is
`start_time.elapsed()` after the loop breaks at `attempts = i`. -/
def measure_load_time (nav : Except WDErr Unit) (sel : Option String)
    (obs : Nat → PollObs) (tChk : Nat → Nat) (navDur : Nat)
    (durAt : Nat → Nat) (fuel : Nat) : Option (Except WDErr Nat) :=
  match nav with
  | .error e => some (.error e)
  | .ok _ =>
    match sel with
    | none => some (.ok navDur)
    | some s =>
      match pollLoop obs tChk s fuel 0 with
      | none => none
      | some (_, .error e) => some (.error e)
      | some (i, .ok _) => some (.ok (durAt i))

/-- The kinds of failure `TcpStream::connect_timeout` can report. -/
inductive ConnectError where
  | refused : ConnectError
  | unreachable : ConnectError
  | nameAbsent : ConnectError
  | timedOut : ConnectError
deriving DecidableEq, Repr

/-- `is_port_open` (`ping_test.rs`, lines 7-9): `net addr timeoutNs` is the
outcome of `TcpStream::connect_timeout`; the function returns `.is_ok()`. -/
def is_port_open (net : SockAddr → Nat → Except ConnectError Unit)
    (addr : SockAddr) (timeoutNs : Nat) : Bool :=
  (net addr timeoutNs).isOk

/-- Observable outcome of one `measure_website_functional_time` call: the
returned result, how many times `emulator.close()` ran, and whether a
close failure was reported on stderr. -/
structure HostCall where
  result : Except WDErr Nat
  closeCalls : Nat
  closeErrReported : Bool
deriving Repr

/-- `measure_website_functional_time` (`ping_test.rs`, lines 35-67).
`newRes` is the outcome of `BrowserEmulator::new` (`?` propagates its
error before any close); `loadTime` the outcome of `measure_load_time`;
`closeRes` that of `emulator.close()`. -/
def measure_website_functional_time (newRes : Except WDErr Unit)
    (loadTime : Except WDErr Nat) (closeRes : Except WDErr Unit) : HostCall :=
  match newRes with
  | .error e => ⟨.error e, 0, false⟩
  | .ok _ =>
    match loadTime with
    | .ok d => ⟨.ok d, 1, !closeRes.isOk⟩
    | .error e => ⟨.error e, 1, !closeRes.isOk⟩

/-- Invariant of the three tables over the record loop: TCP/UDP keys are
hyphen-free, and every stored TCP (resp. UDP) record has transport
protocol lowercasing to `tcp` (resp. `udp`) and a parseable port. -/
def GoodTables (st : Tables) : Prop :=
  (∀ k ∈ mapKeys st.tcp, k.contains '-' = false) ∧
  (∀ k ∈ mapKeys st.udp, k.contains '-' = false) ∧
  (∀ v ∈ mapVals st.tcp,
    v.transport_protocol.map asciiLower = "tcp".data ∧
      (parseU16 v.port_number).isSome = true) ∧
  (∀ v ∈ mapVals st.udp,
    v.transport_protocol.map asciiLower = "udp".data ∧
      (parseU16 v.port_number).isSome = true)

/-! ### Helper lemmas about line splitting -/

/-- A list without the separator splits into a single field. -/
theorem splitChar_eq_single (sep : Char) (l : List Char)
    (h : ∀ c ∈ l, c ≠ sep) : splitChar sep l = [l] := by
  induction l with
  | nil => rfl
  | cons c cs ih =>
    have hc : c ≠ sep := h c (by simp)
    have ih' : splitChar sep cs = [cs] := ih fun d hd => h d (by simp [hd])
    simp [splitChar, hc, ih']

/-- A line whose trim splits into two `:`-separated fields is neither empty
nor `done` in any ASCII case, so `processLine` reaches the two-part branch. -/
theorem processLine_two_parts (line h p : List Char)
    (hsplit : splitChar ':' (trimL line) = [h, p]) :
    processLine line =
      match parseIpv4 (trimL h) with
      | some ip =>
        match parseU16 (trimL p) with
        | some port =>
          if port = 0 then .added ⟨ip, 443⟩ true else .added ⟨ip, port⟩ false
        | none => .added ⟨ip, 443⟩ true
      | none => .ipError := by
  have hne : ¬(trimL line = [] ∨ (eqIgnoreAsciiCase (trimL line) "done".data : Bool)) := by
    rintro (h0 | h0)
    · rw [h0] at hsplit
      simp [splitChar] at hsplit
    · have hnc : ∀ c ∈ trimL line, c ≠ ':' := by
        intro c hc hcol
        have hmap : (trimL line).map asciiLower = "done".data.map asciiLower := by
          have := of_decide_eq_true h0
          exact this
        have : asciiLower c ∈ ("done".data.map asciiLower) := by
          rw [← hmap]; exact List.mem_map_of_mem asciiLower hc
        rw [hcol] at this
        simp [asciiLower] at this
      rw [splitChar_eq_single ':' _ hnc] at hsplit
      simp at hsplit
  rw [processLine]
  rw [if_neg hne, hsplit]

/-! ### C4, C5, C6: address loading -/

/-- **C4.** For every input line of the form `host:port` where the host
parses as an IPv4 address, if the port substring parses to 0 or fails to
parse as a `u16`, the endpoint pushed has port 443 regardless of the
literal port text, a warning is counted, and no parse error is counted. -/
theorem c4_port_zero_or_bad_defaults_to_443 (line h p : List Char)
    (ip : Nat × Nat × Nat × Nat)
    (hsplit : splitChar ':' (trimL line) = [h, p])
    (hip : parseIpv4 (trimL h) = some ip)
    (hport : parseU16 (trimL p) = some 0 ∨ parseU16 (trimL p) = none) :
    processLine line = .added ⟨ip, 443⟩ true ∧
      ∀ ls, load_addresses (line :: ls) =
        ⟨⟨ip, 443⟩ :: (load_addresses ls).addrs, (load_addresses ls).ipErrors,
          (load_addresses ls).formatErrors, 1 + (load_addresses ls).warnings⟩ := by
  have hstep : processLine line = .added ⟨ip, 443⟩ true := by
    rw [processLine_two_parts line h p hsplit, hip]
    rcases hport with h0 | h0 <;> simp [h0]
  refine ⟨hstep, fun ls => ?_⟩
  rw [load_addresses, hstep]
  simp

/-- Witness for C4 at the padded concrete line `10.0.0.2:0`. -/
theorem c4_witness :
    processLine "10.0.0.2:0".data = .added ⟨(10, 0, 0, 2), 443⟩ true :=
  (c4_port_zero_or_bad_defaults_to_443 "10.0.0.2:0".data "10.0.0.2".data
    "0".data (10, 0, 0, 2) (by decide) (by decide) (Or.inl (by decide))).1

/-- **C5.** For every input line of the form `host:port` separated by
exactly one colon, with an IPv4 host and a port parsing into `[1,65535]`,
the pushed endpoint is exactly `(host, port)`, unaltered and unwarned. -/
theorem c5_valid_host_port_kept_exactly (line h p : List Char)
    (ip : Nat × Nat × Nat × Nat) (n : Nat)
    (hsplit : splitChar ':' (trimL line) = [h, p])
    (hip : parseIpv4 (trimL h) = some ip)
    (hn : parseU16 (trimL p) = some n) (hpos : 0 < n) :
    processLine line = .added ⟨ip, n⟩ false ∧
      ∀ ls, (load_addresses (line :: ls)).addrs =
        ⟨ip, n⟩ :: (load_addresses ls).addrs := by
  have hstep : processLine line = .added ⟨ip, n⟩ false := by
    rw [processLine_two_parts line h p hsplit, hip, hn]
    simp [Nat.pos_iff_ne_zero.mp hpos]
  refine ⟨hstep, fun ls => ?_⟩
  rw [load_addresses, hstep]

/-- Witness for C5 at the concrete line `10.0.0.1:80`. -/

theorem c5_witness :
    processLine "10.0.0.1:80".data = .added ⟨(10, 0, 0, 1), 80⟩ false :=
  (c5_valid_host_port_kept_exactly "10.0.0.1:80".data "10.0.0.1".data
    "80".data (10, 0, 0, 1) 80 (by decide) (by decide) (by decide)
    (by decide)).1

/-- **C6.** The scenario `["10.0.0.1:80", "badhost:80", "10.0.0.2:0",
"done"]` yields exactly the endpoints `(10.0.0.1,80)` and `(10.0.0.2,443)`,
one IP parse error (for `badhost:80`), no format error, and one warning;
the bad line does not abort the remaining input. -/
theorem c6_scenario_two_endpoints_one_error :
    load_addresses
      ["10.0.0.1:80".data, "badhost:80".data, "10.0.0.2:0".data, "done".data] =
      ⟨[⟨(10, 0, 0, 1), 80⟩, ⟨(10, 0, 0, 2), 443⟩], 1, 0, 1⟩ := by decide

/-! ### C7: the reachability probe collapses every failure to a boolean -/

/-- **C7.** `is_port_open` is a plain boolean: true exactly when the
connection attempt succeeds within the timeout, false on every failure
mode, and no error value is ever returned to the caller. -/
theorem c7_is_port_open_collapses_failures
    (net : SockAddr → Nat → Except ConnectError Unit)
    (addr : SockAddr) (timeoutNs : Nat) :
    (is_port_open net addr timeoutNs = true ↔ net addr timeoutNs = .ok ()) ∧
      ∀ e : ConnectError, net addr timeoutNs = .error e →
        is_port_open net addr timeoutNs = false := by
  constructor
  · cases h : net addr timeoutNs with
    | ok u => cases u; simp [is_port_open, h, Except.isOk, Except.toBool]
    | error e => simp [is_port_open, h, Except.isOk, Except.toBool]
  · intro e he
    simp [is_port_open, he, Except.isOk, Except.toBool]

/-- Witness for C7: a refused connection yields `false`. -/
theorem c7_witness :
    is_port_open (fun _ _ => Except.error ConnectError.refused)
      ⟨(127, 0, 0, 1), 80⟩ 1000 = false :=
  (c7_is_port_open_collapses_failures
    (fun _ _ => Except.error ConnectError.refused) ⟨(127, 0, 0, 1), 80⟩
    1000).2 ConnectError.refused rfl

/-! ### C2: the session is closed exactly once and close failures are
secondary -/

/-- **C2.** Whenever the session opened successfully, `close` runs exactly
once before `measure_website_functional_time` returns, whatever the
navigate/poll outcome; a successful duration survives a close failure, an
original error survives a close failure, and a close failure is surfaced
only as the secondary stderr report. -/
theorem c2_close_exactly_once_and_secondary
    (newRes : Except WDErr Unit) (loadTime : Except WDErr Nat)
    (closeRes : Except WDErr Unit) (hopen : newRes = .ok ()) :
    (measure_website_functional_time newRes loadTime closeRes).closeCalls = 1 ∧
      (∀ d, loadTime = .ok d →
        (measure_website_functional_time newRes loadTime closeRes).result = .ok d) ∧
      (∀ e, loadTime = .error e →
        (measure_website_functional_time newRes loadTime closeRes).result = .error e) ∧
      (∀ e, closeRes = .error e →
        (measure_website_functional_time newRes loadTime closeRes).closeErrReported = true) := by
  subst hopen
  refine ⟨?_, ?_, ?_, ?_⟩
  · cases loadTime <;> rfl
  · intro d hd; subst hd; rfl
  · intro e he; subst he; rfl
  · intro e he
    subst he
    cases loadTime <;>
      simp [measure_website_functional_time, Except.isOk, Except.toBool]

/-! ### Map lemmas for the port-registry tables -/

/-- Inserting a binding makes its key present. -/
theorem mapKeys_insertMap_self (m : PortMap) (k : List Char) (v : PortRecord) :
    k ∈ mapKeys (insertMap m k v) := by
  simp only [insertMap, mapKeys, List.map_cons]
  exact List.mem_cons_self _ _

/-- A key present after an insert was the inserted key or already present. -/
theorem mem_mapKeys_insertMap (m : PortMap) (k k' : List Char) (v : PortRecord)
    (h : k' ∈ mapKeys (insertMap m k v)) : k' = k ∨ k' ∈ mapKeys m := by
  simp only [insertMap, mapKeys, List.map_cons, List.mem_cons] at h
  rcases h with h | h
  · exact Or.inl h
  · exact Or.inr (List.map_subset _ (List.filter_sublist _).subset h)

/-- Keys survive an insert (possibly rebound, but still present). -/
theorem mem_mapKeys_insertMap_of_mem (m : PortMap) (k k' : List Char)
    (v : PortRecord) (h : k' ∈ mapKeys m) : k' ∈ mapKeys (insertMap m k v) := by
  by_cases hk : k' = k
  · subst hk
    exact mapKeys_insertMap_self m k' v
  · unfold mapKeys at h
    obtain ⟨⟨a, b⟩, hab, rfl⟩ := List.mem_map.mp h
    simp only [insertMap, mapKeys, List.map_cons, List.mem_cons]
    right
    refine List.mem_map.mpr ⟨(a, b), List.mem_filter.mpr ⟨hab, ?_⟩, rfl⟩
    simpa using hk

/-- A record present after an insert is the inserted one or was present. -/
theorem mem_mapVals_insertMap (m : PortMap) (k : List Char) (v v' : PortRecord)
    (h : v' ∈ mapVals (insertMap m k v)) : v' = v ∨ v' ∈ mapVals m := by
  simp only [insertMap, mapVals, List.map_cons, List.mem_cons] at h
  rcases h with h | h
  · exact Or.inl h
  · exact Or.inr (List.map_subset _ (List.filter_sublist _).subset h)

/-- One loop iteration preserves the table invariant. -/
theorem loadStep_good (st : Tables) (r : PortRecord) (h : GoodTables st) :
    GoodTables (loadStep st r) := by
  obtain ⟨h1, h2, h3, h4⟩ := h
  unfold loadStep
  split_ifs with c1 c2 c3 c4 c5
  · exact ⟨h1, h2, h3, h4⟩
  · refine ⟨?_, h2, ?_, h4⟩
    · intro k hk
      rcases mem_mapKeys_insertMap _ _ _ _ hk with rfl | hk'
      · revert c2
        cases r.port_number.contains '-' <;> simp
      · exact h1 k hk'
    · intro v hv
      rcases mem_mapVals_insertMap _ _ _ _ hv with rfl | hv'
      · exact ⟨c4, c3⟩
      · exact h3 v hv'
  · refine ⟨h1, ?_, h3, ?_⟩
    · intro k hk
      rcases mem_mapKeys_insertMap _ _ _ _ hk with rfl | hk'
      · revert c2
        cases r.port_number.contains '-' <;> simp
      · exact h2 k hk'
    · intro v hv
      rcases mem_mapVals_insertMap _ _ _ _ hv with rfl | hv'
      · exact ⟨c5, c3⟩
      · exact h4 v hv'
  · exact ⟨h1, h2, h3, h4⟩
  · exact ⟨h1, h2, h3, h4⟩
  · exact ⟨h1, h2, h3, h4⟩

/-- The invariant holds after folding the whole record sequence. -/
theorem foldl_good (rs : List PortRecord) (st : Tables) (h : GoodTables st) :
    GoodTables (rs.foldl loadStep st) := by
  induction rs generalizing st with
  | nil => exact h
  | cons r rest ih => exact ih _ (loadStep_good st r h)

/-- The tables built by `load_port_services` satisfy the invariant. -/
theorem loadTables_good (rs : List PortRecord) : GoodTables (loadTables rs) :=
  foldl_good rs _ (by refine ⟨?_, ?_, ?_, ?_⟩ <;> intro x hx <;> cases hx)

/-- The range table's key set only grows along the loop. -/
theorem loadStep_range_mono (st : Tables) (r : PortRecord) (k : List Char)
    (h : k ∈ mapKeys st.range) : k ∈ mapKeys (loadStep st r).range := by
  unfold loadStep
  split_ifs <;>
    first
      | exact h
      | exact mem_mapKeys_insertMap_of_mem _ _ _ _ h

/-- The TCP table's key set only grows along the loop. -/
theorem loadStep_tcp_mono (st : Tables) (r : PortRecord) (k : List Char)
    (h : k ∈ mapKeys st.tcp) : k ∈ mapKeys (loadStep st r).tcp := by
  unfold loadStep
  split_ifs <;>
    first
      | exact h
      | exact mem_mapKeys_insertMap_of_mem _ _ _ _ h

/-- Range keys persist through the rest of the fold. -/
theorem foldl_range_mono (rs : List PortRecord) (st : Tables) (k : List Char)
    (h : k ∈ mapKeys st.range) : k ∈ mapKeys (rs.foldl loadStep st).range := by
  induction rs generalizing st with
  | nil => exact h
  | cons r rest ih => exact ih _ (loadStep_range_mono st r k h)

/-- TCP keys persist through the rest of the fold. -/
theorem foldl_tcp_mono (rs : List PortRecord) (st : Tables) (k : List Char)
    (h : k ∈ mapKeys st.tcp) : k ∈ mapKeys (rs.foldl loadStep st).tcp := by
  induction rs generalizing st with
  | nil => exact h
  | cons r rest ih => exact ih _ (loadStep_tcp_mono st r k h)

/-- A hyphenated record with non-empty service name lands in the range
table on its own iteration. -/
theorem loadStep_range_insert (st : Tables) (r : PortRecord)
    (hname : r.service_name ≠ []) (hhyph : r.port_number.contains '-' = true) :
    r.port_number ∈ mapKeys (loadStep st r).range := by
  have hport : r.port_number ≠ [] := by
    intro h0
    rw [h0] at hhyph
    exact absurd hhyph (by decide)
  unfold loadStep
  rw [if_pos ⟨hport, hname⟩, if_pos hhyph]
  exact mapKeys_insertMap_self st.range r.port_number r

/-- A hyphen-free parseable TCP record lands in the TCP table on its own
iteration. -/
theorem loadStep_tcp_insert (st : Tables) (r : PortRecord)
    (hname : r.service_name ≠ [])
    (hhyph : r.port_number.contains '-' = false)
    (hparse : (parseU16 r.port_number).isSome = true)
    (hproto : r.transport_protocol.map asciiLower = "tcp".data) :
    r.port_number ∈ mapKeys (loadStep st r).tcp := by
  have hport : r.port_number ≠ [] := by
    intro h0
    rw [h0] at hparse
    exact absurd hparse (by decide)
  unfold loadStep
  rw [if_pos ⟨hport, hname⟩, if_neg (by rw [hhyph]; simp), if_pos hparse,
    if_pos hproto]
  exact mapKeys_insertMap_self st.tcp r.port_number r

/-- **C3.** A registry record whose port number contains a hyphen is set
aside in the range table and its key enters neither returned table; a
record with a plain parseable port and transport protocol `TCP` gets its
key into the returned TCP table and is never stored in the UDP table. -/
theorem c3_range_and_tcp_placement (rs : List PortRecord) :
    (∀ r ∈ rs, r.service_name ≠ [] → r.port_number.contains '-' = true →
      r.port_number ∈ mapKeys (loadTables rs).range ∧
      r.port_number ∉ mapKeys (load_port_services rs).1 ∧
      r.port_number ∉ mapKeys (load_port_services rs).2) ∧
    (∀ r ∈ rs, r.service_name ≠ [] → r.port_number.contains '-' = false →
      (parseU16 r.port_number).isSome = true →
      r.transport_protocol = "TCP".data →
      r.port_number ∈ mapKeys (load_port_services rs).1 ∧
      r ∉ mapVals (load_port_services rs).2) := by
  obtain ⟨g1, g2, g3, g4⟩ := loadTables_good rs
  constructor
  · intro r hr hname hhyph
    refine ⟨?_, ?_, ?_⟩
    · obtain ⟨rs1, rs2, rfl⟩ := List.append_of_mem hr
      unfold loadTables
      rw [List.foldl_append, List.foldl_cons]
      exact foldl_range_mono rs2 _ _
        (loadStep_range_insert _ r hname hhyph)
    · intro hk
      have := g1 _ hk
      rw [hhyph] at this
      exact absurd this (by decide)
    · intro hk
      have := g2 _ hk
      rw [hhyph] at this
      exact absurd this (by decide)
  · intro r hr hname hhyph hparse hproto
    have hlow : r.transport_protocol.map asciiLower = "tcp".data := by
      rw [hproto]; decide
    constructor
    · obtain ⟨rs1, rs2, rfl⟩ := List.append_of_mem hr
      show r.port_number ∈ mapKeys (loadTables (rs1 ++ r :: rs2)).tcp
      unfold loadTables
      rw [List.foldl_append, List.foldl_cons]
      exact foldl_tcp_mono rs2 _ _
        (loadStep_tcp_insert _ r hname hhyph hparse hlow)
    · intro hv
      have := (g4 r hv).1
      rw [hlow] at this
      exact absurd this (by decide)

/-- Witness for C3: a two-record registry with a `20-25` range record and
an `80`/`TCP` record. -/
theorem c3_witness :
    ("20-25".data ∈ mapKeys (loadTables
        [⟨"ftp-data-range".data, "20-25".data, "tcp".data,
          [], [], [], [], [], [], [], [], []⟩,
          ⟨"http".data, "80".data, "TCP".data,
            [], [], [], [], [], [], [], [], []⟩]).range ∧
      "20-25".data ∉ mapKeys (load_port_services
        [⟨"ftp-data-range".data, "20-25".data, "tcp".data,
          [], [], [], [], [], [], [], [], []⟩,
          ⟨"http".data, "80".data, "TCP".data,
            [], [], [], [], [], [], [], [], []⟩]).1 ∧
      "20-25".data ∉ mapKeys (load_port_services
        [⟨"ftp-data-range".data, "20-25".data, "tcp".data,
          [], [], [], [], [], [], [], [], []⟩,
          ⟨"http".data, "80".data, "TCP".data,
            [], [], [], [], [], [], [], [], []⟩]).2) ∧
      ("80".data ∈ mapKeys (load_port_services
        [⟨"ftp-data-range".data, "20-25".data, "tcp".data,
          [], [], [], [], [], [], [], [], []⟩,
          ⟨"http".data, "80".data, "TCP".data,
            [], [], [], [], [], [], [], [], []⟩]).1 ∧
        (⟨"http".data, "80".data, "TCP".data,
          [], [], [], [], [], [], [], [], []⟩ : PortRecord) ∉
          mapVals (load_port_services
            [⟨"ftp-data-range".data, "20-25".data, "tcp".data,
              [], [], [], [], [], [], [], [], []⟩,
              ⟨"http".data, "80".data, "TCP".data,
                [], [], [], [], [], [], [], [], []⟩]).2) := by
  obtain ⟨h1, h2⟩ := c3_range_and_tcp_placement
    [⟨"ftp-data-range".data, "20-25".data, "tcp".data,
      [], [], [], [], [], [], [], [], []⟩,
      ⟨"http".data, "80".data, "TCP".data,
        [], [], [], [], [], [], [], [], []⟩]
  exact ⟨h1 ⟨"ftp-data-range".data, "20-25".data, "tcp".data,
      [], [], [], [], [], [], [], [], []⟩ (by simp) (by decide) (by decide),
    h2 ⟨"http".data, "80".data, "TCP".data,
      [], [], [], [], [], [], [], [], []⟩ (by simp) (by decide) (by decide)
      (by decide) rfl⟩

/-- **C9.** A record with non-empty service name and a non-empty,
hyphen-free port number that fails `u16` parsing leaves every table
exactly as it was: it is silently excluded from the returned TCP/UDP
tables and from the range table, and (unlike a CSV deserialization
failure, the loop's only error path) raises no error. -/
theorem c9_unparseable_port_silently_skipped (rs1 rs2 : List PortRecord)
    (r : PortRecord) (hname : r.service_name ≠ [])
    (hport : r.port_number ≠ [])
    (hhyph : r.port_number.contains '-' = false)
    (hparse : parseU16 r.port_number = none) :
    loadTables (rs1 ++ r :: rs2) = loadTables (rs1 ++ rs2) ∧
      load_port_services (rs1 ++ r :: rs2) = load_port_services (rs1 ++ rs2) := by
  have hstep : ∀ st, loadStep st r = st := by
    intro st
    unfold loadStep
    rw [if_pos ⟨hport, hname⟩, if_neg (by rw [hhyph]; simp),
      if_neg (by rw [hparse]; simp)]
  have h1 : loadTables (rs1 ++ r :: rs2) = loadTables (rs1 ++ rs2) := by
    unfold loadTables
    rw [List.foldl_append, List.foldl_append, List.foldl_cons, hstep]
  exact ⟨h1, by simp only [load_port_services, h1]⟩

/-! ### C1, C10: the visibility poll's timeout behaviour

The clock hypotheses used below say, of `tChk i` (the value of
`start_time.elapsed()` at the timeout check of iteration `i`, i.e. after
`i + 1` sleeps of 500 ms):
* it exceeds `500000000 * (i + 1)` ns strictly — each sleep lasts at
  least 500 ms and navigation plus each driver query take nonzero time;
* consecutive checks are at most `step` ns apart (`step` bounds one poll
  interval: 500 ms of sleep plus the query's round trip);
* the first check happens within the 30 s window (navigation completes
  before the element timeout would already have expired). -/

/-- If every poll up to the first 30-second crossing reports either "query
found nothing" or "element found but not displayed", the loop exits at
exactly that first crossing with the `Timeout` error. -/
theorem pollLoop_timeout_at_first_crossing
    (obs : Nat → PollObs) (tChk : Nat → Nat) (sel : String) (k : Nat)
    (hk : elementWaitTimeoutNs < tChk k)
    (hkmax : k < maxAttempts)
    (hbefore : ∀ j < k, tChk j ≤ elementWaitTimeoutNs)
    (hobs : ∀ i ≤ k, obs i = .errQuery ∨ obs i = .foundNotDisplayed) :
    ∀ fuel j, j ≤ k → k - j < fuel →
      pollLoop obs tChk sel fuel j = some (k, .error (.timeout sel 30)) := by
  intro fuel
  induction fuel with
  | zero =>
    intro j hj hfuel
    omega
  | succ fuel ih =>
    intro j hj hfuel
    have hjmax : ¬ maxAttempts ≤ j := by omega
    by_cases hjk : j = k
    · subst hjk
      rcases hobs j le_rfl with ho | ho <;>
        simp [pollLoop, ho, hjmax, hk]
    · have hjk' : j < k := lt_of_le_of_ne hj hjk
      have hnt : ¬ elementWaitTimeoutNs < tChk j := not_lt.mpr (hbefore j hjk')
      have hrec := ih (j + 1) (by omega) (by omega)
      rcases hobs j hj with ho | ho <;>
        simp [pollLoop, ho, hjmax, hnt, hrec]

/-- Under the clock hypotheses, a run in which no poll ever reports the
element as displayed (and none errors on `is_displayed`) ends in the
`Timeout` error at the first check past 30 s, which lies within one poll
interval `step` past the deadline and after every pre-deadline check. -/
theorem pollLoop_timeout_of_never_displayed
    (obs : Nat → PollObs) (tChk : Nat → Nat) (sel : String)
    (fuel step : Nat)
    (hobs : ∀ i, obs i = .errQuery ∨ obs i = .foundNotDisplayed)
    (hlo : ∀ i, 500000000 * (i + 1) < tChk i)
    (hstep : ∀ i, tChk (i + 1) ≤ tChk i + step)
    (h0 : tChk 0 ≤ elementWaitTimeoutNs)
    (hfuel : 60 ≤ fuel) :
    ∃ k, pollLoop obs tChk sel fuel 0 = some (k, .error (.timeout sel 30)) ∧
      elementWaitTimeoutNs < tChk k ∧
      tChk k ≤ elementWaitTimeoutNs + step ∧
      ∀ j < k, tChk j ≤ elementWaitTimeoutNs := by
  have hex : ∃ i, elementWaitTimeoutNs < tChk i := by
    refine ⟨59, ?_⟩
    have := hlo 59
    unfold elementWaitTimeoutNs
    omega
  classical
  let k := Nat.find hex
  have hkT : elementWaitTimeoutNs < tChk k := Nat.find_spec hex
  have hbefore : ∀ j < k, tChk j ≤ elementWaitTimeoutNs := fun j hj =>
    not_lt.mp (Nat.find_min hex hj)
  have hk59 : k ≤ 59 := by
    by_contra hgt
    have h59 : tChk 59 ≤ elementWaitTimeoutNs := hbefore 59 (by omega)
    have := hlo 59
    unfold elementWaitTimeoutNs at h59
    omega
  have hkpos : 0 < k := by
    rcases Nat.eq_zero_or_pos k with h | h
    · rw [h] at hkT
      omega
    · exact h
  have hkstep : tChk k ≤ elementWaitTimeoutNs + step := by
    have h1 : tChk (k - 1) ≤ elementWaitTimeoutNs := hbefore (k - 1) (by omega)
    have h2 := hstep (k - 1)
    have h3 : k - 1 + 1 = k := by omega
    rw [h3] at h2
    omega
  refine ⟨k, ?_, hkT, hkstep, hbefore⟩
  exact pollLoop_timeout_at_first_crossing obs tChk sel k hkT
    (by unfold maxAttempts; omega) hbefore (fun i _ => hobs i) fuel 0
    (by omega) (by omega)

/-- **C1.** If the readiness selector never matches any element during
polling, `measure_load_time` fails with the `Timeout` error carrying the
selector and the 30-second timeout (the spec's `ElementTimeout`), at the
first elapsed-time check past the 30-second deadline: never before the
deadline, and at most one poll interval `step` past it. -/
theorem c1_never_matching_selector_times_out
    (sel : String) (obs : Nat → PollObs) (tChk : Nat → Nat)
    (navDur : Nat) (durAt : Nat → Nat) (fuel step : Nat)
    (hobs : ∀ i, obs i = .errQuery)
    (hlo : ∀ i, 500000000 * (i + 1) < tChk i)
    (hstep : ∀ i, tChk (i + 1) ≤ tChk i + step)
    (h0 : tChk 0 ≤ elementWaitTimeoutNs)
    (hfuel : 60 ≤ fuel) :
    ∃ k,
      measure_load_time (.ok ()) (some sel) obs tChk navDur durAt fuel =
        some (.error (.timeout sel 30)) ∧
      pollLoop obs tChk sel fuel 0 = some (k, .error (.timeout sel 30)) ∧
      elementWaitTimeoutNs < tChk k ∧
      tChk k ≤ elementWaitTimeoutNs + step ∧
      ∀ j < k, tChk j ≤ elementWaitTimeoutNs := by
  obtain ⟨k, hpoll, hkT, hkstep, hbefore⟩ :=
    pollLoop_timeout_of_never_displayed obs tChk sel fuel step
      (fun i => Or.inl (hobs i)) hlo hstep h0 hfuel
  exact ⟨k, by simp [measure_load_time, hpoll], hpoll, hkT, hkstep, hbefore⟩

/-- Witness for C1: with every query failing and each check falling
exactly 500000001 ns after the previous one, the loop times out. -/
theorem c1_witness :
    ∃ k,
      measure_load_time (.ok ()) (some "#never") (fun _ => .errQuery)
        (fun i => 500000001 * (i + 1)) 0 (fun _ => 0) 60 =
        some (.error (.timeout "#never" 30)) ∧
      pollLoop (fun _ => .errQuery) (fun i => 500000001 * (i + 1)) "#never"
        60 0 = some (k, .error (.timeout "#never" 30)) ∧
      elementWaitTimeoutNs < 500000001 * (k + 1) ∧
      500000001 * (k + 1) ≤ elementWaitTimeoutNs + 500000001 ∧
      ∀ j < k, 500000001 * (j + 1) ≤ elementWaitTimeoutNs :=
  c1_never_matching_selector_times_out "#never" (fun _ => .errQuery)
    (fun i => 500000001 * (i + 1)) 0 (fun _ => 0) 60 500000001
    (fun _ => rfl)
    (fun i => by
      show 500000000 * (i + 1) < 500000001 * (i + 1)
      omega)
    (fun i => by
      show 500000001 * (i + 1 + 1) ≤ 500000001 * (i + 1) + 500000001
      omega)
    (by
      show 500000001 * (0 + 1) ≤ elementWaitTimeoutNs
      unfold elementWaitTimeoutNs
      omega)
    le_rfl

/-- The `NoSuchElement` error can only be produced on a poll whose query
itself found no element. -/
theorem pollLoop_noSuchElement_only_from_errQuery
    (obs : Nat → PollObs) (tChk : Nat → Nat) (sel s : String)
    (fuel : Nat) :
    ∀ j k n, pollLoop obs tChk sel fuel j =
        some (k, .error (.noSuchElement s n)) → obs k = .errQuery := by
  induction fuel with
  | zero =>
    intro j k n h
    simp [pollLoop] at h
  | succ fuel ih =>
    intro j k n h
    rw [pollLoop] at h
    cases ho : obs j with
    | foundDisplayed =>
      rw [ho] at h
      simp at h
    | foundDisplayErr =>
      rw [ho] at h
      simp at h
    | errQuery =>
      rw [ho] at h
      by_cases hmax : maxAttempts ≤ j
      · rw [if_pos hmax] at h
        obtain ⟨hk, -⟩ := by simpa using h
        rw [← hk]
        exact ho
      · rw [if_neg hmax] at h
        by_cases ht : elementWaitTimeoutNs < tChk j
        · rw [if_pos ht] at h
          simp at h
        · rw [if_neg ht] at h
          exact ih (j + 1) k n h
    | foundNotDisplayed =>
      rw [ho] at h
      by_cases ht : elementWaitTimeoutNs < tChk j
      · rw [if_pos ht] at h
        simp at h
      · rw [if_neg ht] at h
        exact ih (j + 1) k n h

/-- **C10.** If some poll finds the element but no poll ever reports it
displayed (and `is_displayed` never errors), the measurement fails with
the `Timeout` error at the first elapsed-time check past 30 seconds; and
whenever the loop exits with `NoSuchElement`, the exiting poll's query
itself found no element. -/
theorem c10_found_but_never_displayed_times_out
    (sel : String) (obs : Nat → PollObs) (tChk : Nat → Nat)
    (navDur : Nat) (durAt : Nat → Nat) (fuel step : Nat)
    (hobs : ∀ i, obs i = .errQuery ∨ obs i = .foundNotDisplayed)
    (_hfound : ∃ i, obs i = .foundNotDisplayed)
    (hlo : ∀ i, 500000000 * (i + 1) < tChk i)
    (hstep : ∀ i, tChk (i + 1) ≤ tChk i + step)
    (h0 : tChk 0 ≤ elementWaitTimeoutNs)
    (hfuel : 60 ≤ fuel) :
    (∃ k,
      measure_load_time (.ok ()) (some sel) obs tChk navDur durAt fuel =
        some (.error (.timeout sel 30)) ∧
      pollLoop obs tChk sel fuel 0 = some (k, .error (.timeout sel 30)) ∧
      elementWaitTimeoutNs < tChk k ∧
      ∀ j < k, tChk j ≤ elementWaitTimeoutNs) ∧
    ∀ (obs' : Nat → PollObs) (tChk' : Nat → Nat) (s' : String)
      (fuel' j k n : Nat),
        pollLoop obs' tChk' sel fuel' j =
          some (k, .error (.noSuchElement s' n)) → obs' k = .errQuery := by
  constructor
  · obtain ⟨k, hpoll, hkT, hkstep, hbefore⟩ :=
      pollLoop_timeout_of_never_displayed obs tChk sel fuel step hobs hlo
        hstep h0 hfuel
    exact ⟨k, by simp [measure_load_time, hpoll], hpoll, hkT, hbefore⟩
  · intro obs' tChk' s' fuel' j k n h
    exact pollLoop_noSuchElement_only_from_errQuery obs' tChk' sel s'
      fuel' j k n h

/-- Witness for C10: the element is found on every poll but never
displayed, and the loop times out. -/
theorem c10_witness :
    ∃ k,
      measure_load_time (.ok ()) (some "#pale") (fun _ => .foundNotDisplayed)
        (fun i => 500000001 * (i + 1)) 0 (fun _ => 0) 60 =
        some (.error (.timeout "#pale" 30)) ∧
      pollLoop (fun _ => .foundNotDisplayed) (fun i => 500000001 * (i + 1))
        "#pale" 60 0 = some (k, .error (.timeout "#pale" 30)) ∧
      elementWaitTimeoutNs < 500000001 * (k + 1) ∧
      ∀ j < k, 500000001 * (j + 1) ≤ elementWaitTimeoutNs :=
  (c10_found_but_never_displayed_times_out "#pale"
    (fun _ => .foundNotDisplayed) (fun i => 500000001 * (i + 1)) 0
    (fun _ => 0) 60 500000001
    (fun _ => Or.inr rfl) ⟨0, rfl⟩
    (fun i => by
      show 500000000 * (i + 1) < 500000001 * (i + 1)
      omega)
    (fun i => by
      show 500000001 * (i + 1 + 1) ≤ 500000001 * (i + 1) + 500000001
      omega)
    (by
      show 500000001 * (0 + 1) ≤ elementWaitTimeoutNs
      unfold elementWaitTimeoutNs
      omega)
    le_rfl).1

/-- Witness for C9: a record with port `70000` (out of `u16` range)
between two ordinary records changes nothing. -/
theorem c9_witness :
    loadTables
        [⟨"http".data, "80".data, "TCP".data,
          [], [], [], [], [], [], [], [], []⟩,
          ⟨"huge".data, "70000".data, "TCP".data,
            [], [], [], [], [], [], [], [], []⟩,
          ⟨"dns".data, "53".data, "UDP".data,
            [], [], [], [], [], [], [], [], []⟩] =
      loadTables
        [⟨"http".data, "80".data, "TCP".data,
          [], [], [], [], [], [], [], [], []⟩,
          ⟨"dns".data, "53".data, "UDP".data,
            [], [], [], [], [], [], [], [], []⟩] :=
  (c9_unparseable_port_silently_skipped
    [⟨"http".data, "80".data, "TCP".data,
      [], [], [], [], [], [], [], [], []⟩]
    [⟨"dns".data, "53".data, "UDP".data,
      [], [], [], [], [], [], [], [], []⟩]
    ⟨"huge".data, "70000".data, "TCP".data,
      [], [], [], [], [], [], [], [], []⟩
    (by decide) (by decide) (by decide) (by decide)).1

/-- Witness for C2: a 1234 ns measurement survives a failing close, which
is reported once. -/
theorem c2_witness :
    (measure_website_functional_time (.ok ()) (.ok 1234)
      (.error .closeFail)).closeCalls = 1 ∧
    (measure_website_functional_time (.ok ()) (.ok 1234)
      (.error .closeFail)).result = .ok 1234 ∧
    (measure_website_functional_time (.ok ()) (.ok 1234)
      (.error .closeFail)).closeErrReported = true := by
  obtain ⟨h1, h2, -, h4⟩ :=
    c2_close_exactly_once_and_secondary (.ok ()) (.ok 1234)
      (.error .closeFail) rfl
  exact ⟨h1, h2 1234 rfl, h4 .closeFail rfl⟩

/-! ### C8: whitespace around the line and around the host/port substrings
is immaterial -/

/-- Dropping whitespace walks through an all-whitespace prefix. -/
theorem dropWhile_ws_append (w l : List Char)
    (hw : ∀ c ∈ w, isWs c = true) :
    (w ++ l).dropWhile isWs = l.dropWhile isWs := by
  induction w with
  | nil => rfl
  | cons c cs ih =>
    rw [List.cons_append, List.dropWhile_cons, if_pos (hw c (by simp))]
    exact ih fun d hd => hw d (by simp [hd])

/-- An all-whitespace list is dropped entirely. -/
theorem dropWhile_eq_nil_of_ws (w : List Char)
    (hw : ∀ c ∈ w, isWs c = true) : w.dropWhile isWs = [] := by
  have h := dropWhile_ws_append w [] hw
  simpa using h

/-- Dropping whitespace stops no later than a given non-whitespace
character. -/
theorem dropWhile_append_of_ne (X Y : List Char) (c : Char)
    (hc : isWs c = false) :
    (X ++ c :: Y).dropWhile isWs = X.dropWhile isWs ++ c :: Y := by
  induction X with
  | nil => simp [List.dropWhile_cons, hc]
  | cons a X' ih =>
    rw [List.cons_append, List.dropWhile_cons, List.dropWhile_cons]
    by_cases ha : isWs a = true
    · rw [if_pos ha, if_pos ha, ih]
    · rw [if_neg ha, if_neg ha, List.cons_append]

/-- If the whitespace-stripped remainder is nonempty, appending on the
right commutes with the strip. -/
theorem dropWhile_append_of_ne_nil (A B : List Char)
    (h : A.dropWhile isWs ≠ []) :
    (A ++ B).dropWhile isWs = A.dropWhile isWs ++ B := by
  rw [List.dropWhile_append, if_neg (by simpa [List.isEmpty_iff] using h)]

/-- `dropWhile` is idempotent. -/
theorem dropWhile_idem (l : List Char) :
    (l.dropWhile isWs).dropWhile isWs = l.dropWhile isWs := by
  induction l with
  | nil => rfl
  | cons c cs ih =>
    rw [List.dropWhile_cons]
    by_cases hc : isWs c = true
    · rw [if_pos hc]
      exact ih
    · rw [if_neg hc, List.dropWhile_cons, if_neg hc]

/-- A list whose whitespace strip is empty is all whitespace. -/
theorem all_ws_of_dropWhile_nil (l : List Char)
    (h : l.dropWhile isWs = []) : ∀ c ∈ l, isWs c = true := by
  induction l with
  | nil => intro c hc; cases hc
  | cons a l' ih =>
    rw [List.dropWhile_cons] at h
    by_cases ha : isWs a = true
    · rw [if_pos ha] at h
      intro c hc
      rcases List.mem_cons.mp hc with rfl | hc'
      · exact ha
      · exact ih h c hc'
    · rw [if_neg ha] at h
      cases h

/-- The first surviving character of a whitespace strip is not whitespace. -/
theorem dropWhile_head_not (l : List Char) :
    ∀ c t, l.dropWhile isWs = c :: t → isWs c = false := by
  induction l with
  | nil => intro c t h; cases h
  | cons a l' ih =>
    intro c t h
    rw [List.dropWhile_cons] at h
    by_cases ha : isWs a = true
    · rw [if_pos ha] at h
      exact ih c t h
    · rw [if_neg ha] at h
      cases h
      revert ha
      cases isWs a <;> simp

/-- A list containing a non-whitespace character does not strip to `[]`. -/
theorem dropWhile_ne_nil_of_mem (l : List Char) (x : Char) (hx : x ∈ l)
    (hpx : isWs x = false) : l.dropWhile isWs ≠ [] := by
  intro h
  have hall := all_ws_of_dropWhile_nil l h x hx
  rw [hpx] at hall
  cases hall

/-- `trimL` is `rtrimL` of the left strip. -/
theorem trimL_eq_rtrimL_dropWhile (l : List Char) :
    trimL l = rtrimL (l.dropWhile isWs) := rfl

/-- Right-trimming ignores an all-whitespace suffix. -/
theorem rtrimL_ws_append (l w : List Char)
    (hw : ∀ c ∈ w, isWs c = true) : rtrimL (l ++ w) = rtrimL l := by
  unfold rtrimL
  rw [List.reverse_append,
    dropWhile_ws_append _ _ fun c hc => hw c (List.mem_reverse.mp hc)]

/-- Trimming ignores an all-whitespace prefix. -/
theorem trimL_ws_prefix (w l : List Char) (hw : ∀ c ∈ w, isWs c = true) :
    trimL (w ++ l) = trimL l := by
  rw [trimL_eq_rtrimL_dropWhile, trimL_eq_rtrimL_dropWhile,
    dropWhile_ws_append w l hw]

/-- Trimming ignores an all-whitespace suffix. -/
theorem trimL_ws_suffix (l w : List Char) (hw : ∀ c ∈ w, isWs c = true) :
    trimL (l ++ w) = trimL l := by
  rw [trimL_eq_rtrimL_dropWhile, trimL_eq_rtrimL_dropWhile]
  by_cases hd : l.dropWhile isWs = []
  · rw [dropWhile_ws_append l w (all_ws_of_dropWhile_nil l hd),
      dropWhile_eq_nil_of_ws w hw, hd]
  · rw [dropWhile_append_of_ne_nil l w hd, rtrimL_ws_append _ w hw]

/-- `rtrimL` is idempotent. -/
theorem rtrimL_idem (l : List Char) : rtrimL (rtrimL l) = rtrimL l := by
  unfold rtrimL
  rw [List.reverse_reverse, dropWhile_idem]

/-- `rtrimL` returns a prefix of its argument. -/
theorem rtrimL_prefix_self (l : List Char) : rtrimL l <+: l := by
  have h0 : l.reverse.dropWhile isWs <:+ l.reverse :=
    List.dropWhile_suffix isWs
  have h := List.reverse_prefix.mpr h0
  rwa [List.reverse_reverse] at h

/-- Trimming a line with a colon keeps the colon: the left side is
left-stripped and the right side right-trimmed. -/
theorem rtrimL_append_colon (Xd Y : List Char) :
    rtrimL (Xd ++ ':' :: Y) = Xd ++ ':' :: rtrimL Y := by
  unfold rtrimL
  have h1 : (Xd ++ ':' :: Y).reverse = Y.reverse ++ ':' :: Xd.reverse := by
    simp
  rw [h1, dropWhile_append_of_ne Y.reverse Xd.reverse ':' (by decide)]
  simp

/-- Shape of `trimL` on a line made of two colon-separated halves. -/
theorem trimL_append_colon (X Y : List Char) :
    trimL (X ++ ':' :: Y) = X.dropWhile isWs ++ ':' :: rtrimL Y := by
  rw [trimL_eq_rtrimL_dropWhile, dropWhile_append_of_ne X Y ':' (by decide),
    rtrimL_append_colon]

/-- Splitting on the unique colon yields exactly the two halves. -/
theorem splitChar_colon_pair (U V : List Char) (hU : ':' ∉ U)
    (hV : ':' ∉ V) : splitChar ':' (U ++ ':' :: V) = [U, V] := by
  induction U with
  | nil =>
    rw [List.nil_append, splitChar, if_pos rfl,
      splitChar_eq_single ':' V fun c hc h => hV (h ▸ hc)]
  | cons a U' ih =>
    have ha : ¬ a = ':' := fun h => hU (by simp [h])
    rw [List.cons_append, splitChar, if_neg ha,
      ih fun hm => hU (List.mem_cons_of_mem a hm)]

/-- Left-stripping before a full trim changes nothing. -/
theorem trimL_dropWhile (X : List Char) :
    trimL (X.dropWhile isWs) = trimL X := by
  rw [trimL_eq_rtrimL_dropWhile, trimL_eq_rtrimL_dropWhile, dropWhile_idem]

/-- Left strip commutes with right trim. -/
theorem dropWhile_rtrimL_comm (Y : List Char) :
    (rtrimL Y).dropWhile isWs = rtrimL (Y.dropWhile isWs) := by
  rcases hd : Y.dropWhile isWs with - | ⟨c, t⟩
  · have hall := all_ws_of_dropWhile_nil Y hd
    have h1 : rtrimL Y = [] := by
      unfold rtrimL
      rw [dropWhile_eq_nil_of_ws _ fun x hx => hall x (List.mem_reverse.mp hx)]
      rfl
    rw [h1]
    rfl
  · have hc : isWs c = false := dropWhile_head_not Y c t hd
    have hYdecomp : Y.takeWhile isWs ++ c :: t = Y := by
      rw [← hd]
      exact List.takeWhile_append_dropWhile isWs Y
    have hw : ∀ x ∈ Y.takeWhile isWs, isWs x = true := fun x hx =>
      List.mem_takeWhile_imp hx
    have hne : (c :: t).reverse.dropWhile isWs ≠ [] :=
      dropWhile_ne_nil_of_mem _ c (by simp) hc
    have h2 : rtrimL Y = Y.takeWhile isWs ++ rtrimL (c :: t) := by
      conv_lhs => rw [← hYdecomp]
      unfold rtrimL
      rw [List.reverse_append, dropWhile_append_of_ne_nil _ _ hne]
      simp
    rw [h2, dropWhile_ws_append _ _ hw]
    rcases hr : rtrimL (c :: t) with - | ⟨c', t'⟩
    · rfl
    · have hpre : rtrimL (c :: t) <+: (c :: t) := rtrimL_prefix_self _
      rw [hr] at hpre
      obtain ⟨u, hu⟩ := hpre
      rw [List.cons_append] at hu
      injection hu with hcc hut
      subst hcc
      rw [List.dropWhile_cons, if_neg (by simp [hc])]

/-- Right-trimming before a full trim changes nothing. -/
theorem trimL_rtrimL (Y : List Char) : trimL (rtrimL Y) = trimL Y := by
  rw [trimL_eq_rtrimL_dropWhile, trimL_eq_rtrimL_dropWhile,
    dropWhile_rtrimL_comm, rtrimL_idem]

/-- `processLine` on a line with exactly one colon reduces to parsing the
trimmed halves. -/
theorem processLine_colon_form (X Y : List Char) (hX : ':' ∉ X)
    (hY : ':' ∉ Y) :
    processLine (X ++ ':' :: Y) =
      match parseIpv4 (trimL X) with
      | some ip =>
        match parseU16 (trimL Y) with
        | some port =>
          if port = 0 then .added ⟨ip, 443⟩ true else .added ⟨ip, port⟩ false
        | none => .added ⟨ip, 443⟩ true
      | none => .ipError := by
  have hXd : ':' ∉ X.dropWhile isWs := fun hm =>
    hX (List.dropWhile_subset _ hm)
  have hYr : ':' ∉ rtrimL Y := fun hm => hY ((rtrimL_prefix_self Y).subset hm)
  have hsplit : splitChar ':' (trimL (X ++ ':' :: Y)) =
      [X.dropWhile isWs, rtrimL Y] := by
    rw [trimL_append_colon]
    exact splitChar_colon_pair _ _ hXd hYr
  rw [processLine_two_parts _ _ _ hsplit, trimL_dropWhile, trimL_rtrimL]

/-- **C8.** Whitespace around the whole line and around the host and port
substrings is immaterial: a padded `host:port` line is processed exactly
like the unpadded one. -/
theorem c8_padding_immaterial (h p w1 w2 w3 w4 : List Char)
    (hw1 : ∀ c ∈ w1, isWs c = true) (hw2 : ∀ c ∈ w2, isWs c = true)
    (hw3 : ∀ c ∈ w3, isWs c = true) (hw4 : ∀ c ∈ w4, isWs c = true)
    (hhc : ':' ∉ h) (hpc : ':' ∉ p) :
    processLine (w1 ++ h ++ w2 ++ [':'] ++ w3 ++ p ++ w4) =
      processLine (h ++ [':'] ++ p) := by
  have hwX : ':' ∉ w1 ++ h ++ w2 := by
    intro hm
    rcases List.mem_append.mp hm with hm' | hm'
    · rcases List.mem_append.mp hm' with hm'' | hm''
      · exact absurd (hw1 ':' hm'') (by decide)
      · exact hhc hm''
    · exact absurd (hw2 ':' hm') (by decide)
  have hwY : ':' ∉ w3 ++ p ++ w4 := by
    intro hm
    rcases List.mem_append.mp hm with hm' | hm'
    · rcases List.mem_append.mp hm' with hm'' | hm''
      · exact absurd (hw3 ':' hm'') (by decide)
      · exact hpc hm''
    · exact absurd (hw4 ':' hm') (by decide)
  have e1 : w1 ++ h ++ w2 ++ [':'] ++ w3 ++ p ++ w4 =
      (w1 ++ h ++ w2) ++ ':' :: (w3 ++ p ++ w4) := by
    simp [List.append_assoc]
  have e2 : h ++ [':'] ++ p = h ++ ':' :: p := by
    simp
  have tX : trimL (w1 ++ h ++ w2) = trimL h := by
    rw [List.append_assoc, trimL_ws_prefix w1 (h ++ w2) hw1,
      trimL_ws_suffix h w2 hw2]
  have tY : trimL (w3 ++ p ++ w4) = trimL p := by
    rw [List.append_assoc, trimL_ws_prefix w3 (p ++ w4) hw3,
      trimL_ws_suffix p w4 hw4]
  rw [e1, e2, processLine_colon_form _ _ hwX hwY,
    processLine_colon_form _ _ hhc hpc, tX, tY]

/-- Witness for C8: the padded line of the spec example equals the
unpadded one and yields `(10.0.0.1, 80)`. -/
theorem c8_witness :
    processLine " 10.0.0.1 : 80 ".data = processLine "10.0.0.1:80".data ∧
      processLine "10.0.0.1:80".data = .added ⟨(10, 0, 0, 1), 80⟩ false := by
  refine ⟨?_, by decide⟩
  have h := c8_padding_immaterial "10.0.0.1".data "80".data
    " ".data " ".data " ".data " ".data
    (by decide) (by decide) (by decide) (by decide) (by decide) (by decide)
  exact h

end RustNpm
